import Mathlib

/-!
Verification of the Revolut-CSV-to-camt.053-XML converter
(`revolut_to_xml.py`).  The converter's core is embedded shallowly:
amounts are exact rationals (the source uses arbitrary-precision
`Decimal`, whose plain-literal arithmetic is exact), fallible parsing
returns `Option`, and the fatal-error paths of `build_xml` / `main`
return `Except` / an explicit result type.  The arithmetic inside the
embedded code uses structural helpers (`qAdd`, `qSub`, `qNeg`, `qAbs`,
`qLeB`, built on `mkRat`) so that every definition evaluates by kernel
reduction; bridging lemmas identify them with the standard `ℚ`
operations used in the theorem statements.
-/

namespace Revolut

/-- Exact rational addition, structurally (equals `a + b`, see `qAdd_eq`). -/
def qAdd (a b : ℚ) : ℚ := mkRat (a.num * b.den + b.num * a.den) (a.den * b.den)

/-- Exact rational negation, structurally (equals `-a`, see `qNeg_eq`). -/
def qNeg (a : ℚ) : ℚ := mkRat (-a.num) a.den

/-- Exact rational subtraction, structurally (equals `a - b`, see `qSub_eq`). -/
def qSub (a b : ℚ) : ℚ := qAdd a (qNeg b)

/-- Exact rational absolute value, structurally (equals `|a|`, see `qAbs_eq`). -/
def qAbs (a : ℚ) : ℚ := if a.num < 0 then qNeg a else a

/-- Rational order test, structurally (equals `decide (a ≤ b)`, see
`qLeB_eq_decide`). -/
def qLeB (a b : ℚ) : Bool := decide (a.num * (b.den : ℤ) ≤ b.num * (a.den : ℤ))

/-- Python `str.strip()`: drop leading and trailing whitespace. -/
def pyStrip (s : String) : String :=
  String.mk (((s.toList.dropWhile Char.isWhitespace).reverse.dropWhile
    Char.isWhitespace).reverse)

/-- Split a character list at every occurrence of `sep` (the splitting
`strptime("%Y-%m-%d")` performs on its input). -/
def splitOnChar (sep : Char) : List Char → List (List Char)
  | [] => [[]]
  | c :: rest =>
    let r := splitOnChar sep rest
    if c == sep then [] :: r
    else
      match r with
      | [] => [[c]]
      | h :: t => (c :: h) :: t

/-- Calendar date (year, month, day), the result of `parse_date`. -/
structure Date where
  year : Nat
  month : Nat
  day : Nat
deriving DecidableEq

/-- Strict comparison of dates, lexicographic on (year, month, day) —
the order Python `datetime.date` objects compare in. -/
def Date.lt (a b : Date) : Bool :=
  decide (a.year < b.year) ||
    (a.year == b.year &&
      (decide (a.month < b.month) ||
        (a.month == b.month && decide (a.day < b.day))))

/-- Numeric value of an ASCII digit character. -/
def digitVal (c : Char) : Nat := c.toNat - 48

/-- Value of a big-endian list of ASCII digits. -/
def digitsToNat (cs : List Char) : Nat :=
  cs.foldl (fun a c => 10 * a + digitVal c) 0

/-- Body of the decimal-literal parser: unsigned `digits[.digits]`,
at least one digit in total, as in Python `Decimal(s)` for the plain
decimal literals this converter consumes. -/
def parseDecimalCore (cs : List Char) : Option ℚ :=
  let ip := cs.takeWhile Char.isDigit
  let rest := cs.drop ip.length
  match rest with
  | [] => if ip.isEmpty then none else some (mkRat (digitsToNat ip) 1)
  | '.' :: fp =>
    if fp.all Char.isDigit && (!ip.isEmpty || !fp.isEmpty) then
      some (mkRat (digitsToNat ip * 10 ^ fp.length + digitsToNat fp) (10 ^ fp.length))
    else none
  | _ => none

/-- Signed decimal literal, as accepted by Python `Decimal(s)` on the
plain (exponent-free) literals found in the CSV. -/
def parseDecimal (s : String) : Option ℚ :=
  match s.toList with
  | '-' :: cs => (parseDecimalCore cs).map qNeg
  | '+' :: cs => parseDecimalCore cs
  | cs => parseDecimalCore cs

/-- Source `dec`: strip the field, an empty field parses to zero, any
other field is parsed as an exact decimal (`none` models the fatal
`InvalidOperation` of `Decimal`). -/
def dec (s : String) : Option ℚ :=
  let t := pyStrip s
  if t = "" then some 0 else parseDecimal t

/-- Source `parse_date`: strict `YYYY-MM-DD` parse of the stripped
string (`strptime(s.strip(), "%Y-%m-%d")`); `none` models the fatal
`ValueError`. -/
def parse_date (s : String) : Option Date :=
  match splitOnChar '-' (pyStrip s).toList with
  | [y, m, d] =>
    if !y.isEmpty && y.all Char.isDigit &&
       !m.isEmpty && m.all Char.isDigit &&
       !d.isEmpty && d.all Char.isDigit then
      let mv := digitsToNat m
      let dv := digitsToNat d
      if 1 ≤ mv ∧ mv ≤ 12 ∧ 1 ≤ dv ∧ dv ≤ 31 then
        some ⟨digitsToNat y, mv, dv⟩
      else none
    else none
  | _ => none

/-- Big-endian decimal digits of a natural number (the digits of
Python `str(n)`), driven by a structural fuel argument so that it
reduces in the kernel; `fuel = n + 1` always suffices. -/
def natDigitsAux : Nat → Nat → List Char
  | 0, _ => []
  | fuel + 1, n =>
    if n < 10 then [Nat.digitChar n]
    else natDigitsAux fuel (n / 10) ++ [Nat.digitChar (n % 10)]

/-- Decimal digits of `n`, as in Python `str(n)`. -/
def natDigits (n : Nat) : List Char := natDigitsAux (n + 1) n

/-- Python `str(n)` for a natural number. -/
def natToString (n : Nat) : String := String.mk (natDigits n)

/-- Two-digit zero-padded rendering of `n < 100`. -/
def pad2 (n : Nat) : String :=
  String.mk [Nat.digitChar (n / 10), Nat.digitChar (n % 10)]

/-- Number of cents after quantizing `q` to two decimal places with
`ROUND_HALF_UP` (round to nearest, ties away from zero), as in
`d.quantize(Decimal("0.01"), rounding=ROUND_HALF_UP)`.  Structural
form; `roundHalfUpCents_eq` states it as a floor expression. -/
def roundHalfUpCents (q : ℚ) : ℤ :=
  if 0 ≤ q.num then ((200 * q.num.toNat + q.den) / (2 * q.den) : Nat)
  else -(((200 * (-q.num).toNat + q.den) / (2 * q.den) : Nat) : ℤ)

/-- Source `fmt_amt`: render a decimal amount with exactly two digits
after the decimal point, rounding half up (half away from zero), as
`str(d.quantize(Decimal("0.01"), rounding=ROUND_HALF_UP))` does for the
amounts this converter renders. -/
def fmt_amt (q : ℚ) : String :=
  let c := roundHalfUpCents q
  (if c < 0 then ("-" : String) else "") ++
    natToString (c.natAbs / 100) ++ ("." : String) ++ pad2 (c.natAbs % 100)

/-- Source `TX_CODES`: BkTxCd codes per transaction type. -/
def TX_CODES : List (String × String) :=
  [(("CARD_PAYMENT"), ("30000301000")),
   (("TOPUP"), ("10000405000")),
   (("FEE"), ("40000605000")),
   (("TRANSFER"), ("20000405000"))]

/-- Source `TX_INFO`: Slovak labels per transaction type. -/
def TX_INFO : List (String × String) :=
  [(("CARD_PAYMENT"), ("Kartova transakcia")),
   (("TOPUP"), ("Prijata platba")),
   (("FEE"), ("Poplatok")),
   (("TRANSFER"), ("Odchadzajuca platba"))]

/-- Source constant `ACCOUNT_OWNER`. -/
def ACCOUNT_OWNER : String := "Nethemba s.r.o."

/-- Source constant `ACCOUNT_ADDR_LINE1`. -/
def ACCOUNT_ADDR_LINE1 : String := "Grosslingova 2503/62"

/-- Source constant `ACCOUNT_ADDR_LINE2`. -/
def ACCOUNT_ADDR_LINE2 : String := "Bratislava - St. Mesto 81109 SK"

/-- Source constant `SERVICER_BIC`. -/
def SERVICER_BIC : String := "REVOLT21"

/-- Source constant `SERVICER_NAME`. -/
def SERVICER_NAME : String := "Revolut Bank UAB"

/-- The lowercased pattern literal of `extract_sender_name`,
`"Money added from "` (17 characters). -/
def moneyAddedLower : List Char := ("money added from ").toList

/-- Matcher of `re.match(r"Money added from (.+)", d, re.IGNORECASE)`:
the first 17 characters equal the literal case-insensitively, and the
greedy `(.+)` group — the remaining characters up to the first newline
— is non-empty. -/
def moneyAddedMatches (cs : List Char) : Bool :=
  decide ((cs.take 17).map Char.toLower = moneyAddedLower) &&
    !((cs.drop 17).takeWhile (fun c => c != '\n')).isEmpty

/-- Source `extract_sender_name`: on a match, the stripped capture of
`(.+)`; otherwise the description itself. -/
def extract_sender_name (description : String) : String :=
  let cs := description.toList
  if moneyAddedMatches cs then
    pyStrip (String.mk ((cs.drop 17).takeWhile (fun c => c != '\n')))
  else description

/-- One parsed CSV row (`csv.DictReader` dict), fields named after the
CSV columns the source reads.  All columns are taken as present; for
every column the claims touch, an absent optional column behaves like
the empty string. -/
structure Row where
  dateCompleted : String
  totalAmount : String
  balance : String
  typ : String
  description : String
  reference : String
  id : String
  paymentCurrency : String
  origCurrency : String
  origAmount : String
  exchangeRate : String
  amount : String
  beneficiaryIBAN : String
  beneficiaryBIC : String
deriving DecidableEq

/-- The `AmtDtls` subtree of one entry: either a foreign-exchange pair
(instructed amount, counter-value amount, exchange-rate triple) or a
single same-currency instructed amount. -/
inductive AmtDtls where
  | fx (instdCcy instdAmt cntrCcy cntrAmt srcCcy trgtCcy xchgRate : String)
  | same (ccy amt : String)
deriving DecidableEq

/-- The `RltdPties` subtree, direction-dependent as in
`_add_related_parties`: for credits a debtor name, an optional debtor
account (IBAN, name), and the owner as creditor with account; for
debits the owner as debtor with account and no creditor. -/
inductive RltdPties where
  | credit (dbtrNm : String) (dbtrAcct : Option (String × String))
      (cdtrNm cdtrAdr1 cdtrAdr2 cdtrAcctIban cdtrAcctNm : String)
  | debit (dbtrNm dbtrAdr1 dbtrAdr2 dbtrAcctIban dbtrAcctNm : String)
deriving DecidableEq

/-- The `RltdAgts` subtree, direction-dependent as in
`_add_related_agents`; the optional string is the debtor agent's name
(present only when the servicer default is used). -/
inductive RltdAgts where
  | credit (dbtrBIC : String) (dbtrNm : Option String) (cdtrBIC cdtrNm : String)
  | debit (dbtrBIC dbtrNm : String)
deriving DecidableEq

/-- One `Ntry` element, as `_add_entry` emits it. -/
structure Entry where
  ntryRef : String
  amtCcy : String
  amt : String
  cdtDbtInd : String
  bookgDt : Date
  valDt : Date
  bkTxCd : String
  bkTxIssr : String
  acctSvcrRef : String
  txId : String
  amtDtls : AmtDtls
  rltdPties : RltdPties
  rltdAgts : RltdAgts
  rmtUstrd : String
  addtlTxInf : String
deriving DecidableEq

/-- Source `_add_related_parties`. -/
def _add_related_parties (row : Row) (is_credit : Bool) (iban : String) :
    RltdPties :=
  if is_credit then
    let sender_name := extract_sender_name row.description
    let beneficiary_iban := pyStrip row.beneficiaryIBAN
    RltdPties.credit sender_name
      (if beneficiary_iban ≠ "" then some (beneficiary_iban, sender_name) else none)
      ACCOUNT_OWNER ACCOUNT_ADDR_LINE1 ACCOUNT_ADDR_LINE2 iban ACCOUNT_OWNER
  else
    RltdPties.debit ACCOUNT_OWNER ACCOUNT_ADDR_LINE1 ACCOUNT_ADDR_LINE2 iban
      ACCOUNT_OWNER

/-- Source `_add_related_agents`. -/
def _add_related_agents (row : Row) (is_credit : Bool) : RltdAgts :=
  if is_credit then
    let beneficiary_bic := pyStrip row.beneficiaryBIC
    if beneficiary_bic ≠ "" then
      RltdAgts.credit beneficiary_bic none SERVICER_BIC SERVICER_NAME
    else
      RltdAgts.credit SERVICER_BIC (some SERVICER_NAME) SERVICER_BIC SERVICER_NAME
  else
    RltdAgts.debit SERVICER_BIC SERVICER_NAME

/-- The `AmtDtls` block of `_add_entry`: the foreign-exchange pair when
an original currency is present, differs from the payment currency, and
original amount and exchange rate are both present; otherwise a single
same-currency instructed amount of the absolute total amount. -/
def entryAmtDtls (row : Row) (payment_ccy : String) (abs_amount : ℚ) :
    Option AmtDtls :=
  let orig_ccy := pyStrip row.origCurrency
  let orig_amount_str := pyStrip row.origAmount
  let xchg_rate := pyStrip row.exchangeRate
  if orig_ccy ≠ "" ∧ orig_ccy ≠ payment_ccy ∧ orig_amount_str ≠ "" ∧ xchg_rate ≠ "" then do
    let orig_amount ← dec orig_amount_str
    let amount_raw ← dec row.amount
    let amount_before_fees := qAbs amount_raw
    pure (AmtDtls.fx orig_ccy (fmt_amt (qAbs orig_amount)) payment_ccy
      (fmt_amt amount_before_fees) orig_ccy payment_ccy xchg_rate)
  else
    pure (AmtDtls.same payment_ccy (fmt_amt abs_amount))

/-- Source `_add_entry`: build one `Ntry` element (with sequence number
`seq`) from one row; `none` models the fatal parse errors. -/
def _add_entry (row : Row) (seq : Nat) (iban : String) : Option Entry := do
  let total_amount ← dec row.totalAmount
  let is_credit : Bool := qLeB 0 total_amount
  let abs_amount := qAbs total_amount
  let completed_date ← parse_date row.dateCompleted
  let tx_type := row.typ
  let tx_code := (TX_CODES.lookup tx_type).getD ("99999999999")
  let tx_info := (TX_INFO.lookup tx_type).getD tx_type
  let description := pyStrip row.description
  let reference := pyStrip row.reference
  let tx_id := pyStrip row.id
  let payment_ccy := pyStrip row.paymentCurrency
  let amt_dtls ← entryAmtDtls row payment_ccy abs_amount
  let rmt_parts := (if description ≠ "" then [description] else []) ++
    (if reference ≠ "" then [reference] else [])
  let rmt_text := if rmt_parts ≠ [] then String.intercalate ("; ") rmt_parts
    else tx_type
  pure ⟨natToString seq, payment_ccy, fmt_amt abs_amount,
    (if is_credit then ("CRDT" : String) else "DBIT"), completed_date,
    completed_date, tx_code, ("SBA"), natToString seq, tx_id, amt_dtls,
    _add_related_parties row is_credit iban,
    _add_related_agents row is_credit, rmt_text, tx_info⟩

/-- The entry loop of `build_xml`
(`for idx, r in enumerate(rows, start=1): _add_entry(...)`). -/
def _add_entries (rows : List Row) (seq : Nat) (iban : String) :
    Option (List Entry) :=
  match rows with
  | [] => some []
  | r :: rs => do
    let e ← _add_entry r seq iban
    let es ← _add_entries rs (seq + 1) iban
    pure (e :: es)

/-- The running state of the totals loop of `build_xml`. -/
structure Totals where
  total_credit : ℚ
  total_debit : ℚ
  count_credit : Nat
  count_debit : Nat
deriving DecidableEq

/-- One iteration of the totals loop: classify by the sign of the total
amount, accumulating non-negative amounts into the credit sum and
absolute values of negative amounts into the debit sum. -/
def totalsStep (t : Totals) (amt : ℚ) : Totals :=
  if qLeB 0 amt then
    ⟨qAdd t.total_credit amt, t.total_debit, t.count_credit + 1, t.count_debit⟩
  else
    ⟨t.total_credit, qAdd t.total_debit (qAbs amt), t.count_credit,
      t.count_debit + 1⟩

/-- Sequence the parses of a Python list comprehension: `some` of all
results when every element parses, `none` (fatal) otherwise. -/
def mapOpt (f : α → Option β) : List α → Option (List β)
  | [] => some []
  | a :: l => do
    let b ← f a
    let bs ← mapOpt f l
    pure (b :: bs)

/-- The totals loop of `build_xml` over all rows. -/
def computeTotals (rows : List Row) : Option Totals := do
  let amts ← mapOpt (fun r => dec r.totalAmount) rows
  pure (amts.foldl totalsStep ⟨0, 0, 0, 0⟩)

/-- One `Bal` element (opening `PRCD` or closing `CLBD`). -/
structure Bal where
  cd : String
  ccy : String
  amt : String
  cdtDbtInd : String
  dt : Date
deriving DecidableEq

/-- Source `_add_balance`: the element carries the absolute amount in
fixed currency EUR and a `CRDT`/`DBIT` indicator by sign. -/
def _add_balance (code : String) (amount : ℚ) (dt : Date) : Bal :=
  ⟨code, ("EUR"), fmt_amt (qAbs amount),
    if qLeB 0 amount then ("CRDT") else ("DBIT"), dt⟩

/-- The `TxsSummry` block. -/
structure TxsSummry where
  nbOfNtries : String
  sum : String
  ttlNetNtryAmt : String
  cdtDbtInd : String
  cdtNb : String
  cdtSum : String
  dbtNb : String
  dbtSum : String
deriving DecidableEq

/-- The statement-level content `build_xml` emits (dates, balances,
summary, entries), with the exact `Decimal` locals
(`opening_balance`, `closing_balance`, the totals) kept alongside the
rendered elements. -/
structure Stmt where
  first_date : Date
  last_date : Date
  opening_balance : ℚ
  closing_balance : ℚ
  balOpening : Bal
  balClosing : Bal
  totals : Totals
  txsSummry : TxsSummry
  entries : List Entry
deriving DecidableEq

/-- Decidable equality for `Except`, for evaluating the embedded
converter on concrete inputs. -/
instance exceptDecEq {α β : Type} [DecidableEq α] [DecidableEq β] :
    DecidableEq (Except α β)
  | Except.error a, Except.error b =>
    if h : a = b then isTrue (by rw [h])
    else isFalse (fun he => by cases he; exact h rfl)
  | Except.error _, Except.ok _ => isFalse (fun he => by cases he)
  | Except.ok _, Except.error _ => isFalse (fun he => by cases he)
  | Except.ok a, Except.ok b =>
    if h : a = b then isTrue (by rw [h])
    else isFalse (fun he => by cases he; exact h rfl)

/-- Lift a fallible parse into the `Except` of `build_xml` (an
uncaught Python exception: fatal, non-zero exit, no output). -/
def req (o : Option α) : Except String α :=
  match o with
  | some a => Except.ok a
  | none => Except.error ("parse error")

/-- Python `min` over a list of dates (first minimal element; the list
is non-empty in `build_xml`, the empty default is never reached). -/
def firstDateOf : List Date → Date
  | [] => Date.mk 0 0 0
  | d :: ds => ds.foldl (fun m x => if Date.lt x m then x else m) d

/-- Python `max` over a list of dates. -/
def lastDateOf : List Date → Date
  | [] => Date.mk 0 0 0
  | d :: ds => ds.foldl (fun m x => if Date.lt m x then x else m) d

/-- Source `build_xml`: empty row list is the fatal
no-transactions error; otherwise compute the date range, the opening
balance (first row's balance-after minus its total amount), the closing
balance (last row's balance-after), the totals, the summary and the
entries. -/
def build_xml (rows : List Row) (iban : String) : Except String Stmt :=
  match rows with
  | [] => Except.error ("Error: no transactions found in CSV")
  | r0 :: rest => do
    let dates ← req (mapOpt (fun r => parse_date r.dateCompleted) (r0 :: rest))
    let first_date := firstDateOf dates
    let last_date := lastDateOf dates
    let first_balance_after ← req (dec r0.balance)
    let first_total_amount ← req (dec r0.totalAmount)
    let opening_balance := qSub first_balance_after first_total_amount
    let last_row := (r0 :: rest).getLast (List.cons_ne_nil r0 rest)
    let last_balance_after ← req (dec last_row.balance)
    let closing_balance := last_balance_after
    let totals ← req (computeTotals (r0 :: rest))
    let net := qSub totals.total_credit totals.total_debit
    let summary : TxsSummry := ⟨natToString (r0 :: rest).length,
      fmt_amt (qAdd totals.total_credit totals.total_debit),
      fmt_amt (qAbs net),
      if qLeB 0 net then ("CRDT") else ("DBIT"),
      natToString totals.count_credit, fmt_amt totals.total_credit,
      natToString totals.count_debit, fmt_amt totals.total_debit⟩
    let entries ← req (_add_entries (r0 :: rest) 1 iban)
    pure ⟨first_date, last_date, opening_balance, closing_balance,
      _add_balance ("PRCD") opening_balance first_date,
      _add_balance ("CLBD") closing_balance last_date,
      totals, summary, entries⟩

/-- Source `read_csv`, minus the file access: the CSV is newest-first,
the loader reverses it unconditionally to chronological order. -/
def read_csv (rows : List Row) : List Row := rows.reverse

/-- Observable outcome of one run of `main`. -/
inductive RunResult where
  | exited (code : Nat) (stderrMsg : String)
  | wrote (stmt : Stmt)
deriving DecidableEq

/-- Source `main`, after `read_csv`: zero rows exit with status 1 and a
message on standard error before any output is created (an uncaught
parse exception likewise aborts with status 1); otherwise the document
is built and the output file written. -/
def pyMain (rows : List Row) (iban : String) : RunResult :=
  if rows = [] then RunResult.exited 1 ("Error: no transactions found in CSV")
  else
    match build_xml rows iban with
    | Except.error e => RunResult.exited 1 e
    | Except.ok stmt => RunResult.wrote stmt

/-! Bridging lemmas: the structural arithmetic helpers agree with the
standard operations on `ℚ`. -/

theorem qAdd_eq (a b : ℚ) : qAdd a b = a + b := by
  have ha : ((a.den : ℚ)) ≠ 0 := Nat.cast_ne_zero.mpr a.den_nz
  have hb : ((b.den : ℚ)) ≠ 0 := Nat.cast_ne_zero.mpr b.den_nz
  rw [qAdd, Rat.mkRat_eq_divInt, Rat.divInt_eq_div]
  conv_rhs => rw [← Rat.num_div_den a, ← Rat.num_div_den b, div_add_div _ _ ha hb]
  push_cast
  congr 1
  ring

theorem qNeg_eq (a : ℚ) : qNeg a = -a := by
  rw [qNeg, Rat.mkRat_eq_divInt, Rat.divInt_eq_div]
  push_cast
  rw [neg_div, Rat.num_div_den]

theorem qSub_eq (a b : ℚ) : qSub a b = a - b := by
  rw [qSub, qAdd_eq, qNeg_eq, sub_eq_add_neg]

theorem qAbs_eq (a : ℚ) : qAbs a = |a| := by
  rw [qAbs]
  by_cases h : a.num < 0
  · have h2 : a < 0 := by
      rw [← not_le, ← Rat.num_nonneg, not_le]
      exact h
    rw [if_pos h, qNeg_eq, abs_of_neg h2]
  · have h2 : 0 ≤ a := Rat.num_nonneg.mp (not_lt.mp h)
    rw [if_neg h, abs_of_nonneg h2]

theorem qLeB_iff (a b : ℚ) : qLeB a b = true ↔ a ≤ b := by
  rw [qLeB, decide_eq_true_eq]
  have hb : (0 : ℤ) < (b.den : ℤ) := mod_cast b.den_pos
  have ha : (0 : ℤ) < (a.den : ℤ) := mod_cast a.den_pos
  conv_rhs => rw [← Rat.num_divInt_den a, ← Rat.num_divInt_den b]
  rw [Rat.divInt_le_divInt ha hb]

theorem qLeB_eq_decide (a b : ℚ) : qLeB a b = decide (a ≤ b) := by
  by_cases h : a ≤ b
  · rw [(qLeB_iff a b).mpr h, decide_eq_true h]
  · rw [decide_eq_false h]
    by_contra hc
    rw [Bool.not_eq_false] at hc
    exact h ((qLeB_iff a b).mp hc)

theorem roundHalfUpCents_nonneg (q : ℚ) (h : 0 ≤ q) :
    roundHalfUpCents q = ⌊100 * q + 1 / 2⌋ := by
  have hnum : (0 : ℤ) ≤ q.num := Rat.num_nonneg.mpr h
  have hden : ((2 * q.den : ℕ) : ℚ) ≠ 0 := by positivity
  have hq : ((q.den : ℚ)) ≠ 0 := Nat.cast_ne_zero.mpr q.den_nz
  have key : 100 * q + 1 / 2 =
      ((200 * q.num.toNat + q.den : ℕ) : ℚ) / ((2 * q.den : ℕ) : ℚ) := by
    rw [eq_div_iff hden]
    push_cast
    have ht : ((q.num.toNat : ℕ) : ℚ) = ((q.num : ℤ) : ℚ) := by
      exact_mod_cast congrArg (fun z => ((z : ℤ) : ℚ)) (Int.toNat_of_nonneg hnum)
    have hz := Rat.num_div_den q
    rw [div_eq_iff hq] at hz
    rw [ht, hz]
    ring
  rw [roundHalfUpCents, if_pos hnum, key, Rat.floor_natCast_div_natCast]
  exact Int.ofNat_tdiv _ _

theorem roundHalfUpCents_eq (q : ℚ) :
    roundHalfUpCents q =
      if 0 ≤ q then ⌊100 * q + 1 / 2⌋ else -⌊100 * (-q) + 1 / 2⌋ := by
  by_cases h : 0 ≤ q
  · rw [if_pos h, roundHalfUpCents_nonneg q h]
  · rw [if_neg h]
    have hnum : ¬(0 : ℤ) ≤ q.num := fun hc => h (Rat.num_nonneg.mp hc)
    have hneg : 0 ≤ -q := by
      rw [not_le] at h
      exact le_of_lt (neg_pos.mpr h)
    have := roundHalfUpCents_nonneg (-q) hneg
    rw [roundHalfUpCents, if_neg hnum]
    rw [roundHalfUpCents] at this
    have hnn : (0 : ℤ) ≤ (-q).num := Rat.num_nonneg.mpr hneg
    rw [if_pos hnn] at this
    have hden : (-q).den = q.den := Rat.neg_den q
    have hnum2 : (-q).num = -q.num := Rat.neg_num q
    rw [hden, hnum2] at this
    rw [← this]

/-! Inversion helpers for the monadic parse chains. -/

theorem bind_eq_some_iff {α β : Type} {x : Option α} {f : α → Option β} {b : β} :
    (x >>= f) = some b ↔ ∃ a, x = some a ∧ f a = some b := by
  cases x <;> simp

theorem ebind_eq_ok_iff {α β : Type} {x : Except String α}
    {f : α → Except String β} {b : β} :
    (x >>= f) = Except.ok b ↔ ∃ a, x = Except.ok a ∧ f a = Except.ok b := by
  cases x <;> simp [Bind.bind, Except.bind]

theorem req_eq_ok {α : Type} {o : Option α} {a : α} :
    req o = Except.ok a ↔ o = some a := by
  cases o <;> simp [req]

/-- The remittance text `_add_entry` computes from a row (source lines
building `rmt_parts` and the `Ustrd` element). -/
def rmtText (row : Row) : String :=
  let description := pyStrip row.description
  let reference := pyStrip row.reference
  let rmt_parts := (if description ≠ "" then [description] else []) ++
    (if reference ≠ "" then [reference] else [])
  if rmt_parts ≠ [] then String.intercalate ("; ") rmt_parts else row.typ

/-- Inversion of `_add_entry`: a successfully built entry determines
every field from the row's parsed values. -/
theorem _add_entry_ok {row : Row} {seq : Nat} {iban : String} {e : Entry}
    (h : _add_entry row seq iban = some e) :
    ∃ t d ad, dec row.totalAmount = some t ∧
      parse_date row.dateCompleted = some d ∧
      entryAmtDtls row (pyStrip row.paymentCurrency) (qAbs t) = some ad ∧
      e.ntryRef = natToString seq ∧ e.acctSvcrRef = natToString seq ∧
      e.amtCcy = pyStrip row.paymentCurrency ∧ e.amt = fmt_amt (qAbs t) ∧
      e.cdtDbtInd = (if qLeB 0 t then ("CRDT" : String) else "DBIT") ∧
      e.bookgDt = d ∧ e.valDt = d ∧
      e.bkTxCd = (TX_CODES.lookup row.typ).getD ("99999999999") ∧
      e.addtlTxInf = (TX_INFO.lookup row.typ).getD row.typ ∧
      e.amtDtls = ad ∧
      e.rltdPties = _add_related_parties row (qLeB 0 t) iban ∧
      e.rltdAgts = _add_related_agents row (qLeB 0 t) ∧
      e.rmtUstrd = rmtText row := by
  rw [_add_entry] at h
  rw [bind_eq_some_iff] at h
  obtain ⟨t, ht, h⟩ := h
  rw [bind_eq_some_iff] at h
  obtain ⟨d, hd, h⟩ := h
  rw [bind_eq_some_iff] at h
  obtain ⟨ad, had, h⟩ := h
  simp only [Option.pure_def, Option.some.injEq] at h
  subst h
  exact ⟨t, d, ad, ht, hd, had, rfl, rfl, rfl, rfl, rfl, rfl, rfl, rfl, rfl,
    rfl, rfl, rfl, rfl⟩

/-- Inversion of `build_xml` on a non-empty row list: success determines
the whole statement record from the parsed values. -/
theorem build_xml_ok {r0 : Row} {rest : List Row} {iban : String} {stmt : Stmt}
    (h : build_xml (r0 :: rest) iban = Except.ok stmt) :
    ∃ dates b0 t0 bl T es,
      mapOpt (fun r => parse_date r.dateCompleted) (r0 :: rest) = some dates ∧
      dec r0.balance = some b0 ∧
      dec r0.totalAmount = some t0 ∧
      dec ((r0 :: rest).getLast (List.cons_ne_nil r0 rest)).balance = some bl ∧
      computeTotals (r0 :: rest) = some T ∧
      _add_entries (r0 :: rest) 1 iban = some es ∧
      stmt = ⟨firstDateOf dates, lastDateOf dates, qSub b0 t0, bl,
        _add_balance ("PRCD") (qSub b0 t0) (firstDateOf dates),
        _add_balance ("CLBD") bl (lastDateOf dates), T,
        ⟨natToString (r0 :: rest).length,
         fmt_amt (qAdd T.total_credit T.total_debit),
         fmt_amt (qAbs (qSub T.total_credit T.total_debit)),
         if qLeB 0 (qSub T.total_credit T.total_debit) then ("CRDT") else ("DBIT"),
         natToString T.count_credit, fmt_amt T.total_credit,
         natToString T.count_debit, fmt_amt T.total_debit⟩, es⟩ := by
  rw [build_xml] at h
  rw [ebind_eq_ok_iff] at h
  obtain ⟨dates, hdates, h⟩ := h
  rw [ebind_eq_ok_iff] at h
  obtain ⟨b0, hb0, h⟩ := h
  rw [ebind_eq_ok_iff] at h
  obtain ⟨t0, ht0, h⟩ := h
  rw [ebind_eq_ok_iff] at h
  obtain ⟨bl, hbl, h⟩ := h
  rw [ebind_eq_ok_iff] at h
  obtain ⟨T, hT, h⟩ := h
  rw [ebind_eq_ok_iff] at h
  obtain ⟨es, hes, h⟩ := h
  rw [req_eq_ok] at hdates hb0 ht0 hbl hT hes
  simp only [Pure.pure, Except.pure, Except.ok.injEq] at h
  exact ⟨dates, b0, t0, bl, T, es, hdates, hb0, ht0, hbl, hT, hes, h.symm⟩

/-- Claim C6: an empty parsed row list makes the program abort with
exit status 1 and the no-transactions message on standard error before
any output file is created, while some non-empty row list converts
successfully and writes the output. -/
theorem claim_C6_empty_input :
    (∀ iban : String,
      pyMain [] iban = RunResult.exited 1 ("Error: no transactions found in CSV")) ∧
    (∀ iban : String,
      build_xml [] iban = Except.error ("Error: no transactions found in CSV")) ∧
    (∃ (rows : List Row) (iban : String) (stmt : Stmt),
      rows ≠ [] ∧ pyMain rows iban = RunResult.wrote stmt) := by
  refine ⟨fun _ => rfl, fun _ => rfl,
    ⟨[⟨("2026-01-15"), ("100.00"), ("100.00"), ("TOPUP"),
      ("Money added from ACME CORP"), (""), (""), ("EUR"), (""), (""), (""),
      (""), (""), ("")⟩], ("SK0000000000000000000000"), _, by decide, rfl⟩⟩

/-- Claim C4: the bank-transaction code and its label come from the
fixed lookup on the transaction type; the four known types map to their
fixed 11-digit codes with Slovak labels, and any other type maps to the
sentinel code with the raw type string as label. -/
theorem claim_C4_tx_code_lookup :
    ∀ (row : Row) (seq : Nat) (iban : String) (e : Entry),
      _add_entry row seq iban = some e →
      (e.bkTxCd = (TX_CODES.lookup row.typ).getD ("99999999999") ∧
       e.addtlTxInf = (TX_INFO.lookup row.typ).getD row.typ) ∧
      (row.typ = "CARD_PAYMENT" →
        e.bkTxCd = "30000301000" ∧ e.addtlTxInf = "Kartova transakcia") ∧
      (row.typ = "TOPUP" →
        e.bkTxCd = "10000405000" ∧ e.addtlTxInf = "Prijata platba") ∧
      (row.typ = "FEE" →
        e.bkTxCd = "40000605000" ∧ e.addtlTxInf = "Poplatok") ∧
      (row.typ = "TRANSFER" →
        e.bkTxCd = "20000405000" ∧ e.addtlTxInf = "Odchadzajuca platba") ∧
      (row.typ ≠ "CARD_PAYMENT" → row.typ ≠ "TOPUP" → row.typ ≠ "FEE" →
        row.typ ≠ "TRANSFER" →
        e.bkTxCd = "99999999999" ∧ e.addtlTxInf = row.typ) := by
  intro row seq iban e h
  obtain ⟨t, d, ad, ht, hd, had, h1, h2, h3, h4, h5, h6, h7, hcode, hinfo,
    hrest⟩ := _add_entry_ok h
  refine ⟨⟨hcode, hinfo⟩, ?_, ?_, ?_, ?_, ?_⟩
  · intro hty
    rw [hcode, hinfo, hty]
    exact ⟨rfl, rfl⟩
  · intro hty
    rw [hcode, hinfo, hty]
    exact ⟨rfl, rfl⟩
  · intro hty
    rw [hcode, hinfo, hty]
    exact ⟨rfl, rfl⟩
  · intro hty
    rw [hcode, hinfo, hty]
    exact ⟨rfl, rfl⟩
  · intro hn1 hn2 hn3 hn4
    rw [hcode, hinfo]
    simp [TX_CODES, TX_INFO, List.lookup, beq_eq_false_iff_ne.mpr hn1,
      beq_eq_false_iff_ne.mpr hn2, beq_eq_false_iff_ne.mpr hn3,
      beq_eq_false_iff_ne.mpr hn4]

/-- A concrete unrecognized-type row for the C4 witness (the spec's
"REFUND" scenario). -/
def rowC4 : Row :=
  ⟨("2026-01-15"), ("-5.00"), ("95.00"), ("REFUND"), ("Refund of order"),
   (""), (""), ("EUR"), (""), (""), (""), (""), (""), ("")⟩

theorem claim_C4_witness :
    ∃ e, _add_entry rowC4 1 ("SK11") = some e ∧
      e.bkTxCd = ("99999999999") ∧ e.addtlTxInf = ("REFUND") := by
  obtain ⟨e, he⟩ : ∃ e, _add_entry rowC4 1 ("SK11") = some e := ⟨_, rfl⟩
  have hc := claim_C4_tx_code_lookup rowC4 1 ("SK11") e he
  have hu := hc.2.2.2.2.2 (by decide) (by decide) (by decide) (by decide)
  exact ⟨e, he, hu.1, hu.2.trans rfl⟩

/-- Claim C8: the remittance text is the stripped description and
reference joined with a semicolon-space, just the non-empty one when
only one is present, and the raw transaction type when both are
empty. -/
theorem claim_C8_remittance :
    ∀ (row : Row) (seq : Nat) (iban : String) (e : Entry),
      _add_entry row seq iban = some e →
      (pyStrip row.description ≠ "" → pyStrip row.reference ≠ "" →
        e.rmtUstrd = pyStrip row.description ++ ("; ") ++ pyStrip row.reference) ∧
      (pyStrip row.description ≠ "" → pyStrip row.reference = "" →
        e.rmtUstrd = pyStrip row.description) ∧
      (pyStrip row.description = "" → pyStrip row.reference ≠ "" →
        e.rmtUstrd = pyStrip row.reference) ∧
      (pyStrip row.description = "" → pyStrip row.reference = "" →
        e.rmtUstrd = row.typ) := by
  intro row seq iban e h
  obtain ⟨t, d, ad, ht, hd, had, h1, h2, h3, h4, h5, h6, h7, hcode, hinfo,
    hdtl, hp, hg, hrmt⟩ := _add_entry_ok h
  refine ⟨?_, ?_, ?_, ?_⟩ <;> intro hdesc href <;> rw [hrmt] <;>
    simp [rmtText, hdesc, href, String.intercalate, String.intercalate.go]

/-- A concrete row with both description and reference for the C8
witness. -/
def rowC8 : Row :=
  ⟨("2026-01-16"), ("-3.50"), ("91.50"), ("CARD_PAYMENT"), (" Coffee shop "),
   ("INV-42"), (""), ("EUR"), (""), (""), (""), (""), (""), ("")⟩

theorem claim_C8_witness :
    ∃ e, _add_entry rowC8 1 ("SK11") = some e ∧
      e.rmtUstrd = pyStrip rowC8.description ++ ("; ") ++ pyStrip rowC8.reference ∧
      e.rmtUstrd = ("Coffee shop; INV-42") := by
  obtain ⟨e, he⟩ : ∃ e, _add_entry rowC8 1 ("SK11") = some e := ⟨_, rfl⟩
  have hc := (claim_C8_remittance rowC8 1 ("SK11") e he).1 (by decide) (by decide)
  exact ⟨e, he, hc, by rw [hc]; decide⟩

/-- Claim C10: every emitted balance element carries the absolute
amount with fixed currency EUR and a direction indicator that is CRDT
for non-negative and DBIT for negative balances; in the built statement
the opening and closing elements are exactly these renderings of the
opening/closing balance values. -/
theorem claim_C10_balance_rendering :
    ∀ (rows : List Row) (iban : String) (stmt : Stmt),
      build_xml rows iban = Except.ok stmt →
      stmt.balOpening = _add_balance ("PRCD") stmt.opening_balance stmt.first_date ∧
      stmt.balClosing = _add_balance ("CLBD") stmt.closing_balance stmt.last_date ∧
      (∀ (code : String) (q : ℚ) (dt : Date),
        (_add_balance code q dt).ccy = ("EUR") ∧
        (_add_balance code q dt).amt = fmt_amt |q| ∧
        (0 ≤ q → (_add_balance code q dt).cdtDbtInd = ("CRDT")) ∧
        (q < 0 → (_add_balance code q dt).cdtDbtInd = ("DBIT") ∧
          (_add_balance code q dt).amt = fmt_amt (-q))) := by
  intro rows iban stmt h
  match rows with
  | [] => exact absurd h (by rw [build_xml]; exact fun hc => by cases hc)
  | r0 :: rest =>
    obtain ⟨dates, b0, t0, bl, T, es, hdates, hb0, ht0, hbl, hT, hes, hstmt⟩ :=
      build_xml_ok h
    subst hstmt
    refine ⟨rfl, rfl, ?_⟩
    intro code q dt
    refine ⟨rfl, ?_, ?_, ?_⟩
    · rw [_add_balance, qAbs_eq]
    · intro hq
      rw [_add_balance]
      simp only [if_pos ((qLeB_iff 0 q).mpr hq)]
    · intro hq
      have hnot : ¬(qLeB 0 q = true) := fun hc =>
        absurd ((qLeB_iff 0 q).mp hc) (not_le.mpr hq)
      refine ⟨?_, ?_⟩
      · rw [_add_balance]
        simp only [if_neg hnot]
      · rw [_add_balance, qAbs_eq, abs_of_neg hq]

/-- A concrete FEE-first row list producing a negative opening balance
for the C10 witness. -/
def rowC10 : Row :=
  ⟨("2026-01-02"), ("5.00"), ("0.00"), ("TOPUP"), ("Money added from X"),
   (""), (""), ("EUR"), (""), (""), (""), (""), (""), ("")⟩

/-- Projection used to read the opening balance out of a `build_xml`
result on a concrete input. -/
def openingOf (x : Except String Stmt) : ℚ :=
  match x with
  | Except.ok s => s.opening_balance
  | Except.error _ => 0

theorem claim_C10_witness :
    ∃ stmt, build_xml [rowC10] ("SK12") = Except.ok stmt ∧
      stmt.balOpening = _add_balance ("PRCD") stmt.opening_balance stmt.first_date ∧
      (_add_balance ("PRCD") (stmt.opening_balance) stmt.first_date).cdtDbtInd =
        ("DBIT") ∧
      (_add_balance ("PRCD") (stmt.opening_balance) stmt.first_date).amt =
        fmt_amt (-stmt.opening_balance) ∧
      stmt.balOpening.amt = ("5.00") := by
  obtain ⟨stmt, hs⟩ : ∃ s, build_xml [rowC10] ("SK12") = Except.ok s := ⟨_, rfl⟩
  have hc := claim_C10_balance_rendering [rowC10] ("SK12") stmt hs
  have hval : stmt.opening_balance = mkRat (-5) 1 := by
    have h2 := congrArg openingOf hs
    rw [show openingOf (Except.ok stmt) = stmt.opening_balance from rfl] at h2
    rw [← h2]
    decide
  have hneg : stmt.opening_balance < 0 := by
    rw [hval]
    rw [show (mkRat (-5) 1 : ℚ) = -5 from by rw [Rat.mkRat_one]; norm_num]
    norm_num
  have hd := (hc.2.2 ("PRCD") stmt.opening_balance stmt.first_date).2.2.2 hneg
  refine ⟨stmt, hs, hc.1, hd.1, hd.2, ?_⟩
  rw [hc.1]
  rw [(hc.2.2 ("PRCD") stmt.opening_balance stmt.first_date).2.1]
  rw [abs_of_neg hneg, hval]
  rw [show (-(mkRat (-5) 1) : ℚ) = mkRat 5 1 from by
    rw [← qNeg_eq]
    decide]
  decide

/-- Claim C1: for every non-empty row list, the opening balance is the
first row's balance-after minus the first row's total amount, computed
exactly (no rounding), and the closing balance is the last row's
balance-after. -/
theorem claim_C1_opening_closing_balance :
    ∀ (r0 : Row) (rest : List Row) (iban : String) (stmt : Stmt) (b0 t0 bl : ℚ),
      build_xml (r0 :: rest) iban = Except.ok stmt →
      dec r0.balance = some b0 →
      dec r0.totalAmount = some t0 →
      dec ((r0 :: rest).getLast (List.cons_ne_nil r0 rest)).balance = some bl →
      stmt.opening_balance = b0 - t0 ∧ stmt.closing_balance = bl := by
  intro r0 rest iban stmt b0 t0 bl h hb ht hl
  obtain ⟨dates, b0', t0', bl', T, es, hdates, hb', ht', hbl', hT, hes, hstmt⟩ :=
    build_xml_ok h
  rw [hb] at hb'
  rw [ht] at ht'
  rw [hl] at hbl'
  rw [Option.some.injEq] at hb' ht' hbl'
  subst hstmt
  refine ⟨?_, hbl'.symm⟩
  show qSub b0' t0' = b0 - t0
  rw [qSub_eq, hb', ht']

/-- A concrete one-row list for the C1 witness: balance-after `-5.00`,
total amount `-5.00`, so the opening balance is exactly `0`. -/
def rowC1 : Row :=
  ⟨("2026-01-02"), ("-5.00"), ("-5.00"), ("FEE"), ("Service fee"), (""),
   (""), ("EUR"), (""), (""), (""), (""), (""), ("")⟩

theorem claim_C1_witness :
    ∃ stmt, build_xml [rowC1] ("SK10") = Except.ok stmt ∧
      stmt.opening_balance = mkRat (-5) 1 - mkRat (-5) 1 ∧
      stmt.closing_balance = mkRat (-5) 1 := by
  obtain ⟨stmt, hs⟩ : ∃ s, build_xml [rowC1] ("SK10") = Except.ok s := ⟨_, rfl⟩
  have hc := claim_C1_opening_closing_balance rowC1 [] ("SK10") stmt
    (mkRat (-5) 1) (mkRat (-5) 1) (mkRat (-5) 1) hs (by decide) (by decide)
    (by decide)
  exact ⟨stmt, hs, hc.1, hc.2⟩

/-- Characterization of the totals loop: starting from `t`, a pass over
the amounts adds the sum of the non-negative amounts to the credit sum,
the sum of absolute values of negative amounts to the debit sum, and
counts each class. -/
theorem foldl_totalsStep_spec (l : List ℚ) (t : Totals) :
    (l.foldl totalsStep t).total_credit =
      t.total_credit + (l.filter (fun q => decide (0 ≤ q))).sum ∧
    (l.foldl totalsStep t).total_debit =
      t.total_debit + ((l.filter (fun q => decide (q < 0))).map
        (fun q => |q|)).sum ∧
    (l.foldl totalsStep t).count_credit =
      t.count_credit + (l.filter (fun q => decide (0 ≤ q))).length ∧
    (l.foldl totalsStep t).count_debit =
      t.count_debit + (l.filter (fun q => decide (q < 0))).length := by
  induction l generalizing t with
  | nil => simp
  | cons q l ih =>
    rw [List.foldl_cons]
    obtain ⟨ih1, ih2, ih3, ih4⟩ := ih (totalsStep t q)
    by_cases h : 0 ≤ q
    · have hstep : totalsStep t q =
          ⟨t.total_credit + q, t.total_debit, t.count_credit + 1,
            t.count_debit⟩ := by
        rw [totalsStep, if_pos ((qLeB_iff 0 q).mpr h), qAdd_eq]
      have hneg : ¬(q < 0) := not_lt.mpr h
      rw [ih1, ih2, ih3, ih4, hstep]
      refine ⟨?_, ?_, ?_, ?_⟩ <;>
        simp [List.filter_cons, h, hneg] <;> ring
    · have hq : q < 0 := not_le.mp h
      have hstep : totalsStep t q =
          ⟨t.total_credit, t.total_debit + |q|, t.count_credit,
            t.count_debit + 1⟩ := by
        have hnot : ¬(qLeB 0 q = true) := fun hc =>
          absurd ((qLeB_iff 0 q).mp hc) h
        rw [totalsStep, if_neg hnot, qAdd_eq, qAbs_eq]
      rw [ih1, ih2, ih3, ih4, hstep]
      refine ⟨?_, ?_, ?_, ?_⟩ <;>
        simp [List.filter_cons, h, hq] <;> ring

/-- The two sign classes partition the amount list. -/
theorem filter_sign_length (l : List ℚ) :
    (l.filter (fun q => decide (0 ≤ q))).length +
      (l.filter (fun q => decide (q < 0))).length = l.length := by
  induction l with
  | nil => simp
  | cons q l ih =>
    by_cases h : 0 ≤ q
    · have hneg : ¬(q < 0) := not_lt.mpr h
      simp [List.filter_cons, h, hneg]
      omega
    · have hq : q < 0 := not_le.mp h
      simp [List.filter_cons, h, hq]
      omega

/-- `mapOpt` preserves length on success. -/
theorem mapOpt_length {α β : Type} {f : α → Option β} :
    ∀ {l : List α} {b : List β}, mapOpt f l = some b → b.length = l.length := by
  intro l
  induction l with
  | nil =>
    intro b h
    rw [mapOpt, Option.some.injEq] at h
    rw [← h]
    rfl
  | cons a l ih =>
    intro b h
    rw [mapOpt, bind_eq_some_iff] at h
    obtain ⟨x, hx, h⟩ := h
    rw [bind_eq_some_iff] at h
    obtain ⟨xs, hxs, h⟩ := h
    simp only [Option.pure_def, Option.some.injEq] at h
    rw [← h]
    simp [ih hxs]

/-- Claim C2: in one pass the summary totals satisfy: credit sum is the
sum of the non-negative total amounts, debit sum the sum of absolute
values of the negative ones, the emitted net is `credit − debit`,
credit count plus debit count is the entry count, and the grand-total
direction indicator is CRDT exactly when the net is non-negative
(ties included). -/
theorem claim_C2_summary_totals :
    ∀ (rows : List Row) (iban : String) (stmt : Stmt) (amts : List ℚ),
      build_xml rows iban = Except.ok stmt →
      mapOpt (fun r => dec r.totalAmount) rows = some amts →
      stmt.totals.total_credit = (amts.filter (fun q => decide (0 ≤ q))).sum ∧
      stmt.totals.total_debit =
        ((amts.filter (fun q => decide (q < 0))).map (fun q => |q|)).sum ∧
      stmt.totals.count_credit = (amts.filter (fun q => decide (0 ≤ q))).length ∧
      stmt.totals.count_debit = (amts.filter (fun q => decide (q < 0))).length ∧
      stmt.totals.count_credit + stmt.totals.count_debit = rows.length ∧
      stmt.txsSummry.ttlNetNtryAmt =
        fmt_amt |stmt.totals.total_credit - stmt.totals.total_debit| ∧
      stmt.txsSummry.cdtDbtInd =
        (if 0 ≤ stmt.totals.total_credit - stmt.totals.total_debit
         then ("CRDT") else ("DBIT")) := by
  intro rows iban stmt amts h hA
  match rows with
  | [] => exact absurd h (by rw [build_xml]; exact fun hc => by cases hc)
  | r0 :: rest =>
    obtain ⟨dates, b0, t0, bl, T, es, hdates, hb0, ht0, hbl, hT, hes, hstmt⟩ :=
      build_xml_ok h
    rw [computeTotals, bind_eq_some_iff] at hT
    obtain ⟨amts', hA', hT⟩ := hT
    rw [hA] at hA'
    rw [Option.some.injEq] at hA'
    subst hA'
    simp only [Option.pure_def, Option.some.injEq] at hT
    obtain ⟨f1, f2, f3, f4⟩ := foldl_totalsStep_spec amts ⟨0, 0, 0, 0⟩
    rw [hT] at f1 f2 f3 f4
    subst hstmt
    have hlen : amts.length = (r0 :: rest).length := mapOpt_length hA
    refine ⟨?_, ?_, ?_, ?_, ?_, ?_, ?_⟩
    · show T.total_credit = _
      rw [f1, zero_add]
    · show T.total_debit = _
      rw [f2, zero_add]
    · show T.count_credit = _
      rw [f3, Nat.zero_add]
    · show T.count_debit = _
      rw [f4, Nat.zero_add]
    · show T.count_credit + T.count_debit = _
      rw [f3, f4, Nat.zero_add, Nat.zero_add, filter_sign_length, hlen]
    · show fmt_amt (qAbs (qSub T.total_credit T.total_debit)) = _
      rw [qAbs_eq, qSub_eq]
    · show (if qLeB 0 (qSub T.total_credit T.total_debit) then ("CRDT")
        else ("DBIT")) = _
      rw [qSub_eq, qLeB_eq_decide]
      simp only [decide_eq_true_eq]

/-- Two concrete rows (one credit, one debit) for the C2 witness. -/
def rowC2a : Row :=
  ⟨("2026-01-10"), ("100.00"), ("100.00"), ("TOPUP"),
   ("Money added from X"), (""), (""), ("EUR"), (""), (""), (""), (""),
   (""), ("")⟩

/-- Companion debit row for the C2 witness. -/
def rowC2b : Row :=
  ⟨("2026-01-11"), ("-30.00"), ("70.00"), ("CARD_PAYMENT"), ("Shop"), (""),
   (""), ("EUR"), (""), (""), (""), (""), (""), ("")⟩

theorem claim_C2_witness :
    ∃ stmt, build_xml [rowC2a, rowC2b] ("SK13") = Except.ok stmt ∧
      stmt.totals.total_credit =
        (([mkRat 100 1, mkRat (-30) 1] : List ℚ).filter
          (fun q => decide (0 ≤ q))).sum ∧
      stmt.totals.total_debit =
        ((([mkRat 100 1, mkRat (-30) 1] : List ℚ).filter
          (fun q => decide (q < 0))).map (fun q => |q|)).sum ∧
      stmt.totals.count_credit + stmt.totals.count_debit = 2 ∧
      stmt.txsSummry.cdtDbtInd =
        (if 0 ≤ stmt.totals.total_credit - stmt.totals.total_debit
         then ("CRDT") else ("DBIT")) := by
  obtain ⟨stmt, hs⟩ : ∃ s, build_xml [rowC2a, rowC2b] ("SK13") = Except.ok s :=
    ⟨_, rfl⟩
  have hc := claim_C2_summary_totals [rowC2a, rowC2b] ("SK13") stmt
    [mkRat 100 1, mkRat (-30) 1] hs (by decide)
  exact ⟨stmt, hs, hc.1, hc.2.1, hc.2.2.2.2.1, hc.2.2.2.2.2.2⟩

/-- Claim C3: the amount details are the foreign-exchange pair
(instructed = absolute original amount in the original currency,
counter-value = absolute pre-fee `Amount` in the payment currency,
exchange-rate triple source/target/rate) exactly when the original
currency is non-empty and differs from the payment currency and the
original amount and exchange rate are non-empty; otherwise a single
instructed amount in the payment currency equal to the absolute total
amount. -/
theorem claim_C3_amount_details :
    ∀ (row : Row) (seq : Nat) (iban : String) (e : Entry),
      _add_entry row seq iban = some e →
      ((pyStrip row.origCurrency ≠ "" ∧
        pyStrip row.origCurrency ≠ pyStrip row.paymentCurrency ∧
        pyStrip row.origAmount ≠ "" ∧ pyStrip row.exchangeRate ≠ "") →
        ∃ qa qb, dec (pyStrip row.origAmount) = some qa ∧
          dec row.amount = some qb ∧
          e.amtDtls = AmtDtls.fx (pyStrip row.origCurrency) (fmt_amt |qa|)
            (pyStrip row.paymentCurrency) (fmt_amt |qb|)
            (pyStrip row.origCurrency) (pyStrip row.paymentCurrency)
            (pyStrip row.exchangeRate)) ∧
      (¬(pyStrip row.origCurrency ≠ "" ∧
        pyStrip row.origCurrency ≠ pyStrip row.paymentCurrency ∧
        pyStrip row.origAmount ≠ "" ∧ pyStrip row.exchangeRate ≠ "") →
        ∀ t, dec row.totalAmount = some t →
          e.amtDtls = AmtDtls.same (pyStrip row.paymentCurrency)
            (fmt_amt |t|)) := by
  intro row seq iban e h
  obtain ⟨t, d, ad, ht, hd, had, h1, h2, h3, h4, h5, h6, h7, hcode, hinfo,
    hdtl, hp, hg, hrmt⟩ := _add_entry_ok h
  simp only [entryAmtDtls] at had
  constructor
  · intro hc
    rw [if_pos hc] at had
    rw [bind_eq_some_iff] at had
    obtain ⟨qa, hqa, had⟩ := had
    rw [bind_eq_some_iff] at had
    obtain ⟨qb, hqb, had⟩ := had
    simp only [Option.pure_def, Option.some.injEq] at had
    refine ⟨qa, qb, hqa, hqb, ?_⟩
    rw [hdtl, ← had, qAbs_eq, qAbs_eq]
  · intro hnc t' ht'
    rw [ht] at ht'
    rw [Option.some.injEq] at ht'
    subst ht'
    rw [if_neg hnc] at had
    simp only [Option.pure_def, Option.some.injEq] at had
    rw [hdtl, ← had, qAbs_eq]

/-- A concrete foreign-currency row for the C3 witness: original
currency USD, payment currency EUR, pre-fee amount `-45.45`, fee-added
total `-45.67`. -/
def rowC3 : Row :=
  ⟨("2026-01-12"), ("-45.67"), ("54.33"), ("CARD_PAYMENT"), ("Amazon US"),
   (""), (""), ("EUR"), ("USD"), ("-50.00"), ("1.1"), ("-45.45"), (""), ("")⟩

theorem claim_C3_witness :
    ∃ e qa qb, _add_entry rowC3 1 ("SK14") = some e ∧
      dec (pyStrip rowC3.origAmount) = some qa ∧
      dec rowC3.amount = some qb ∧
      e.amtDtls = AmtDtls.fx (pyStrip rowC3.origCurrency) (fmt_amt |qa|)
        (pyStrip rowC3.paymentCurrency) (fmt_amt |qb|)
        (pyStrip rowC3.origCurrency) (pyStrip rowC3.paymentCurrency)
        (pyStrip rowC3.exchangeRate) ∧
      (Option.map (fun x => x.amtDtls) (_add_entry rowC3 1 ("SK14"))) =
        some (AmtDtls.fx ("USD") ("50.00") ("EUR") ("45.45") ("USD")
          ("EUR") ("1.1")) := by
  obtain ⟨e, he⟩ : ∃ e, _add_entry rowC3 1 ("SK14") = some e := ⟨_, rfl⟩
  obtain ⟨qa, qb, hqa, hqb, hfx⟩ :=
    (claim_C3_amount_details rowC3 1 ("SK14") e he).1 (by decide)
  exact ⟨e, qa, qb, he, hqa, hqb, hfx, by decide⟩

/-- The debtor name carried by a `RltdPties` subtree. -/
def dbtrNameOf : RltdPties → String
  | RltdPties.credit n _ _ _ _ _ _ => n
  | RltdPties.debit n _ _ _ _ => n

/-- A concrete credit row whose description carries a trailing space
after the sender name. -/
def rowC7x : Row :=
  ⟨("2026-01-15"), ("100.00"), ("100.00"), ("TOPUP"),
   ("Money added from ACME CORP "), (""), (""), ("EUR"), (""), (""), (""),
   (""), (""), ("")⟩

/-- Counterexample to claim C7 as stated: for the credit row whose
description is `"Money added from ACME CORP "` the code emits the
debtor name `"ACME CORP"` (the capture is stripped), not the raw
remainder `"ACME CORP "`. -/
theorem claim_C7_counterexample :
    (Option.map (fun e => dbtrNameOf e.rltdPties)
      (_add_entry rowC7x 1 ("SK15"))) = some ("ACME CORP") ∧
    ("ACME CORP" : String) ≠ ("ACME CORP ") := by
  constructor
  · decide
  · decide

/-- A helper: `takeWhile` keeps a list all of whose elements satisfy
the predicate. -/
theorem takeWhile_of_all {p : Char → Bool} :
    ∀ {l : List Char}, (∀ c ∈ l, p c = true) → l.takeWhile p = l := by
  intro l
  induction l with
  | nil => intro _; rfl
  | cons c l ih =>
    intro h
    rw [List.takeWhile_cons, h c (by simp)]
    simp [ih (fun x hx => h x (by simp [hx]))]

/-- Claim C7 (amended): for every credit row the debtor name is
`extract_sender_name` of the raw description; on a case-insensitive
match of the prefix `"Money added from "`, the name is the remainder
truncated at the first newline and stripped of surrounding whitespace
(the match needs at least one non-newline character after the prefix),
and on no match the full description is used verbatim. -/
theorem claim_C7_sender_name :
    ∀ (row : Row) (seq : Nat) (iban : String) (e : Entry) (t : ℚ),
      _add_entry row seq iban = some e →
      dec row.totalAmount = some t → 0 ≤ t →
      (∃ acct, e.rltdPties = RltdPties.credit
        (extract_sender_name row.description) acct ACCOUNT_OWNER
        ACCOUNT_ADDR_LINE1 ACCOUNT_ADDR_LINE2 iban ACCOUNT_OWNER) ∧
      (∀ rest : String, rest.toList ≠ [] →
        (∀ c ∈ rest.toList, c ≠ '\n') →
        extract_sender_name (("Money added from ") ++ rest) = pyStrip rest ∧
        extract_sender_name (("MONEY added FROM ") ++ rest) = pyStrip rest) ∧
      (∀ s : String, moneyAddedMatches s.toList = false →
        extract_sender_name s = s) := by
  intro row seq iban e t h ht h0
  obtain ⟨t', d, ad, ht', hd, had, h1, h2, h3, h4, h5, h6, h7, hcode, hinfo,
    hdtl, hp, hg, hrmt⟩ := _add_entry_ok h
  rw [ht] at ht'
  rw [Option.some.injEq] at ht'
  subst ht'
  refine ⟨?_, ?_, ?_⟩
  · rw [(qLeB_iff 0 t).mpr h0] at hp
    rw [_add_related_parties] at hp
    rw [if_pos rfl] at hp
    exact ⟨_, hp⟩
  · intro rest hne hnl
    have hall : ∀ c ∈ rest.toList, (c != '\n') = true := fun c hc =>
      bne_iff_ne.mpr (hnl c hc)
    have htw : rest.toList.takeWhile (fun c => c != '\n') = rest.toList :=
      takeWhile_of_all hall
    constructor
    · have hlist : (("Money added from ") ++ rest).toList =
          ("Money added from ").toList ++ rest.toList := String.data_append _ _
      have hlen : (("Money added from ").toList).length = 17 := by decide
      have hmatch : moneyAddedMatches ((("Money added from ") ++ rest).toList)
          = true := by
        rw [moneyAddedMatches, hlist, ← hlen, List.take_left, List.drop_left,
          htw]
        rw [Bool.and_eq_true, Bool.not_eq_true']
        refine ⟨by decide, ?_⟩
        cases hr : rest.toList with
        | nil => exact absurd hr hne
        | cons a l => rfl
      rw [extract_sender_name]
      rw [if_pos hmatch, hlist, ← hlen, List.drop_left, htw]
      rfl
    · have hlist : (("MONEY added FROM ") ++ rest).toList =
          ("MONEY added FROM ").toList ++ rest.toList := String.data_append _ _
      have hlen : (("MONEY added FROM ").toList).length = 17 := by decide
      have hmatch : moneyAddedMatches ((("MONEY added FROM ") ++ rest).toList)
          = true := by
        rw [moneyAddedMatches, hlist, ← hlen, List.take_left, List.drop_left,
          htw]
        rw [Bool.and_eq_true, Bool.not_eq_true']
        refine ⟨by decide, ?_⟩
        cases hr : rest.toList with
        | nil => exact absurd hr hne
        | cons a l => rfl
      rw [extract_sender_name]
      rw [if_pos hmatch, hlist, ← hlen, List.drop_left, htw]
      rfl
  · intro s hm
    rw [extract_sender_name]
    have : ¬(moneyAddedMatches s.toList = true) := by
      rw [hm]
      decide
    rw [if_neg this]

theorem claim_C7_witness :
    ∃ e, _add_entry rowC7x 1 ("SK15") = some e ∧
      (∃ acct, e.rltdPties = RltdPties.credit
        (extract_sender_name rowC7x.description) acct ACCOUNT_OWNER
        ACCOUNT_ADDR_LINE1 ACCOUNT_ADDR_LINE2 ("SK15") ACCOUNT_OWNER) ∧
      extract_sender_name (("Money added from ") ++ ("ACME CORP ")) =
        pyStrip ("ACME CORP ") := by
  obtain ⟨e, he⟩ : ∃ e, _add_entry rowC7x 1 ("SK15") = some e := ⟨_, rfl⟩
  have hc := claim_C7_sender_name rowC7x 1 ("SK15") e (mkRat 100 1) he
    (by decide) (by decide)
  exact ⟨e, he, hc.1,
    (hc.2.1 ("ACME CORP ") (by decide) (by decide)).1⟩

/-- Decimal digit characters are digits. -/
theorem digitChar_isDigit : ∀ k, k < 10 → (Nat.digitChar k).isDigit = true := by
  decide

/-- Decimal digit characters are not the decimal point. -/
theorem digitChar_ne_dot : ∀ k, k < 10 → Nat.digitChar k ≠ '.' := by
  decide

/-- Every character `natDigitsAux` emits is a decimal digit (and in
particular not a point). -/
theorem natDigitsAux_digits :
    ∀ (fuel n : Nat), ∀ c ∈ natDigitsAux fuel n,
      c.isDigit = true ∧ c ≠ '.' := by
  intro fuel
  induction fuel with
  | zero =>
    intro n c hc
    exact absurd hc (by simp [natDigitsAux])
  | succ fuel ih =>
    intro n c hc
    rw [natDigitsAux] at hc
    by_cases h : n < 10
    · rw [if_pos h] at hc
      simp only [List.mem_singleton] at hc
      subst hc
      exact ⟨digitChar_isDigit n h, digitChar_ne_dot n h⟩
    · rw [if_neg h] at hc
      rw [List.mem_append] at hc
      cases hc with
      | inl h1 => exact ih _ c h1
      | inr h2 =>
        simp only [List.mem_singleton] at h2
        subst h2
        exact ⟨digitChar_isDigit _ (Nat.mod_lt n (by norm_num)),
          digitChar_ne_dot _ (Nat.mod_lt n (by norm_num))⟩

/-- A concrete row whose total amount is `-1.005` for the C9 claim. -/
def rowC9 : Row :=
  ⟨("2026-01-03"), ("-1.005"), ("98.995"), ("CARD_PAYMENT"), ("Micro"),
   (""), (""), ("EUR"), (""), (""), (""), (""), (""), ("")⟩

/-- Claim C9: every rendered amount has exactly two digits after the
(single final) decimal point, quantized by round-half-up (half away
from zero, the floor form below); in particular `1.005` renders as
`"1.01"`, and a row with total amount `-1.005` is rendered through its
absolute value as `"1.01"` with direction DBIT. -/
theorem claim_C9_two_decimal_rendering :
    (∀ q : ℚ, ∃ pre post : String,
      fmt_amt q = pre ++ ("." : String) ++ post ∧
      post.length = 2 ∧
      post.toList.all Char.isDigit = true ∧
      pre.toList.all (fun c => c != '.') = true ∧
      roundHalfUpCents q =
        (if 0 ≤ q then ⌊100 * q + 1 / 2⌋ else -⌊100 * (-q) + 1 / 2⌋)) ∧
    fmt_amt (1005 / 1000 : ℚ) = ("1.01") ∧
    (Option.map (fun e => (e.amt, e.cdtDbtInd))
      (_add_entry rowC9 1 ("SK16"))) = some ((("1.01") : String), ("DBIT")) := by
  refine ⟨?_, ?_, by decide⟩
  · intro q
    refine ⟨(if roundHalfUpCents q < 0 then ("-" : String) else "") ++
      natToString ((roundHalfUpCents q).natAbs / 100),
      pad2 ((roundHalfUpCents q).natAbs % 100), rfl, rfl, ?_, ?_,
      roundHalfUpCents_eq q⟩
    · have hx : (roundHalfUpCents q).natAbs % 100 < 100 :=
        Nat.mod_lt _ (by norm_num)
      have h1 : (roundHalfUpCents q).natAbs % 100 / 10 < 10 := by omega
      have h2 : (roundHalfUpCents q).natAbs % 100 % 10 < 10 :=
        Nat.mod_lt _ (by norm_num)
      simp only [pad2]
      show ([Nat.digitChar _, Nat.digitChar _].all Char.isDigit) = true
      simp [digitChar_isDigit _ h1, digitChar_isDigit _ h2]
    · show ((if roundHalfUpCents q < 0 then ("-" : String) else "").data ++
        natDigits ((roundHalfUpCents q).natAbs / 100)).all
          (fun c => c != '.') = true
      rw [List.all_append, Bool.and_eq_true]
      constructor
      · by_cases h : roundHalfUpCents q < 0 <;> simp [h]
      · rw [List.all_eq_true]
        intro c hc
        exact bne_iff_ne.mpr (natDigitsAux_digits _ _ c hc).2
  · have h : (mkRat 1005 1000 : ℚ) = 1005 / 1000 := by
      rw [Rat.mkRat_eq_divInt, Rat.divInt_eq_div]
      norm_num
    rw [← h]
    decide

/-- `mapOpt` of a singleton. -/
theorem mapOpt_singleton {α β : Type} {f : α → Option β} {a : α} {b : β}
    (h : f a = some b) : mapOpt f [a] = some [b] := by
  simp [mapOpt, h]

/-- `mapOpt` distributes over append on success. -/
theorem mapOpt_append {α β : Type} {f : α → Option β} :
    ∀ {l1 l2 : List α} {b1 b2 : List β}, mapOpt f l1 = some b1 →
      mapOpt f l2 = some b2 → mapOpt f (l1 ++ l2) = some (b1 ++ b2) := by
  intro l1
  induction l1 with
  | nil =>
    intro l2 b1 b2 h1 h2
    rw [mapOpt, Option.some.injEq] at h1
    subst h1
    simpa using h2
  | cons a l ih =>
    intro l2 b1 b2 h1 h2
    rw [mapOpt, bind_eq_some_iff] at h1
    obtain ⟨x, hx, h1⟩ := h1
    rw [bind_eq_some_iff] at h1
    obtain ⟨xs, hxs, h1⟩ := h1
    simp only [Option.pure_def, Option.some.injEq] at h1
    subst h1
    rw [List.cons_append, mapOpt, bind_eq_some_iff]
    refine ⟨x, hx, ?_⟩
    rw [bind_eq_some_iff]
    exact ⟨xs ++ b2, ih hxs h2, by simp⟩

/-- `mapOpt` commutes with reversal on success. -/
theorem mapOpt_reverse {α β : Type} {f : α → Option β} :
    ∀ {l : List α} {b : List β}, mapOpt f l = some b →
      mapOpt f l.reverse = some b.reverse := by
  intro l
  induction l with
  | nil =>
    intro b h
    rw [mapOpt, Option.some.injEq] at h
    subst h
    rfl
  | cons a l ih =>
    intro b h
    rw [mapOpt, bind_eq_some_iff] at h
    obtain ⟨x, hx, h⟩ := h
    rw [bind_eq_some_iff] at h
    obtain ⟨xs, hxs, h⟩ := h
    simp only [Option.pure_def, Option.some.injEq] at h
    subst h
    rw [List.reverse_cons, List.reverse_cons]
    exact mapOpt_append (ih hxs) (mapOpt_singleton hx)

/-- The entry loop: one entry per row in order, booking date the row's
parsed completion date, sequence numbers counting up from the start
value and used both as `NtryRef` and as `AcctSvcrRef`. -/
theorem _add_entries_spec {iban : String} :
    ∀ (rows : List Row) (n : Nat) (es : List Entry),
      _add_entries rows n iban = some es →
      es.length = rows.length ∧
      mapOpt (fun r => parse_date r.dateCompleted) rows =
        some (es.map (fun e => e.bookgDt)) ∧
      ∀ i (hi : i < es.length),
        (es.get ⟨i, hi⟩).ntryRef = natToString (n + i) ∧
        (es.get ⟨i, hi⟩).acctSvcrRef = natToString (n + i) := by
  intro rows
  induction rows with
  | nil =>
    intro n es h
    rw [_add_entries, Option.some.injEq] at h
    subst h
    exact ⟨rfl, rfl, fun i hi => absurd hi (by simp)⟩
  | cons r rs ih =>
    intro n es h
    rw [_add_entries, bind_eq_some_iff] at h
    obtain ⟨e, he, h⟩ := h
    rw [bind_eq_some_iff] at h
    obtain ⟨es', hes', h⟩ := h
    simp only [Option.pure_def, Option.some.injEq] at h
    subst h
    obtain ⟨ihlen, ihmap, ihidx⟩ := ih (n + 1) es' hes'
    obtain ⟨t, d, ad, ht, hd, had, h1, h2, h3, h4, h5, h6, h7, hrest⟩ :=
      _add_entry_ok he
    have hdate : parse_date r.dateCompleted = some e.bookgDt := by
      rw [h6]
      exact hd
    refine ⟨by simp [ihlen], ?_, ?_⟩
    · rw [List.map_cons, mapOpt, bind_eq_some_iff]
      refine ⟨e.bookgDt, hdate, ?_⟩
      rw [bind_eq_some_iff]
      exact ⟨es'.map (fun e => e.bookgDt), ihmap, by simp⟩
    · intro i hi
      match i with
      | 0 =>
        refine ⟨?_, ?_⟩
        · show e.ntryRef = natToString (n + 0)
          rw [Nat.add_zero]
          exact h1
        · show e.acctSvcrRef = natToString (n + 0)
          rw [Nat.add_zero]
          exact h2
      | Nat.succ i =>
        have hi' : i < es'.length := by
          simp only [List.length_cons] at hi
          omega
        have := ihidx i hi'
        have harith : n + 1 + i = n + (i + 1) := by omega
        rw [harith] at this
        exact this

/-- Strict chronological order on dates, as a proposition. -/
def dateLT (a b : Date) : Prop := Date.lt a b = true

instance (a b : Date) : Decidable (dateLT a b) :=
  inferInstanceAs (Decidable (Date.lt a b = true))

/-- Claim C5: for a well-formed newest-first source (all dates parse
and are strictly decreasing), the built entries appear in strictly
increasing chronological order matching the input dates — obtained by
the loader's unconditional reversal — with dense 1-based sequence
numbers used both as each entry's reference and as its
account-servicer reference. -/
theorem claim_C5_chronological_entries :
    ∀ (src : List Row) (iban : String) (stmt : Stmt) (dates : List Date),
      build_xml (read_csv src) iban = Except.ok stmt →
      mapOpt (fun r => parse_date r.dateCompleted) src = some dates →
      List.Chain' (fun a b => dateLT b a) dates →
      stmt.entries.map (fun e => e.bookgDt) = dates.reverse ∧
      List.Chain' dateLT (stmt.entries.map (fun e => e.bookgDt)) ∧
      stmt.entries.length = src.length ∧
      (∀ i (hi : i < stmt.entries.length),
        (stmt.entries.get ⟨i, hi⟩).ntryRef = natToString (i + 1) ∧
        (stmt.entries.get ⟨i, hi⟩).acctSvcrRef = natToString (i + 1)) := by
  intro src iban stmt dates h hdates hchain
  rw [read_csv] at h
  have hrevmap := mapOpt_reverse hdates
  rcases hrev : src.reverse with _ | ⟨r0, rest⟩
  · rw [hrev] at h
    exact absurd h (by rw [build_xml]; exact fun hc => by cases hc)
  · rw [hrev] at h hrevmap
    obtain ⟨dates', b0, t0, bl, T, es, hdates', hb0, ht0, hbl, hT, hes,
      hstmt⟩ := build_xml_ok h
    obtain ⟨hlen, hmap, hidx⟩ := _add_entries_spec (r0 :: rest) 1 es hes
    have hmapeq : es.map (fun e => e.bookgDt) = dates.reverse := by
      rw [hrevmap] at hmap
      rw [Option.some.injEq] at hmap
      exact hmap.symm
    subst hstmt
    refine ⟨hmapeq, ?_, ?_, ?_⟩
    · show List.Chain' dateLT (es.map (fun e => e.bookgDt))
      rw [hmapeq]
      exact List.chain'_reverse.mpr hchain
    · show es.length = src.length
      rw [hlen, ← hrev, List.length_reverse]
    · intro i hi
      have := hidx i hi
      rw [Nat.add_comm 1 i] at this
      exact this

/-- The newer of two concrete rows (newest-first source order) for the
C5 witness. -/
def rowC5a : Row :=
  ⟨("2026-01-20"), ("-30.00"), ("70.00"), ("CARD_PAYMENT"), ("Shop"), (""),
   (""), ("EUR"), (""), (""), (""), (""), (""), ("")⟩

/-- The older row for the C5 witness. -/
def rowC5b : Row :=
  ⟨("2026-01-15"), ("100.00"), ("100.00"), ("TOPUP"),
   ("Money added from X"), (""), (""), ("EUR"), (""), (""), (""), (""),
   (""), ("")⟩

theorem claim_C5_witness :
    ∃ stmt, build_xml (read_csv [rowC5a, rowC5b]) ("SK17") = Except.ok stmt ∧
      stmt.entries.map (fun e => e.bookgDt) =
        ([Date.mk 2026 1 20, Date.mk 2026 1 15] : List Date).reverse ∧
      List.Chain' dateLT (stmt.entries.map (fun e => e.bookgDt)) ∧
      stmt.entries.length = 2 ∧
      (∀ i (hi : i < stmt.entries.length),
        (stmt.entries.get ⟨i, hi⟩).ntryRef = natToString (i + 1) ∧
        (stmt.entries.get ⟨i, hi⟩).acctSvcrRef = natToString (i + 1)) := by
  obtain ⟨stmt, hs⟩ :
      ∃ s, build_xml (read_csv [rowC5a, rowC5b]) ("SK17") = Except.ok s :=
    ⟨_, rfl⟩
  have hc := claim_C5_chronological_entries [rowC5a, rowC5b] ("SK17") stmt
    [Date.mk 2026 1 20, Date.mk 2026 1 15] hs (by decide)
    (List.chain'_cons.mpr ⟨by decide, List.chain'_singleton _⟩)
  exact ⟨stmt, hs, hc.1, hc.2.1, hc.2.2.1, hc.2.2.2⟩

end Revolut
